import Mathlib

/-!
Verification of the FreeCAD G-code post-processor base script
(`src/Mod/Path/Path/Post/scripts/base.py`), functional half: the
module-level `export` pipeline built from `linenumber`, `format_outstring`,
`parse` and `drill_translate` (the `PostProcessorBase` class in the top half
of the file is dead code and is not even syntactically valid Python).

Embedding conventions:
* Numeric values are exact rationals (`ℚ`).  The source manipulates Python
  floats and formats them with `format(x, ".3f")`; digit-string formatting
  and float rounding are abstracted away: an emitted token keeps the exact
  converted value.  The float literal `0.05` in `drill_translate` is taken
  as the exact rational `1/20`.
* FreeCAD `Units.Quantity(v, Length).getValueAs(UNIT_FORMAT)` is a linear
  scale by the active unit system: it is modelled as multiplication by
  `Config.lengthFactor` (1 for mm output).  Velocity conversion is
  `Config.speedFactor` (60 for mm/min output, internal unit mm/s).
* The module-level configuration globals (`MODAL`, `PRECISION`,
  `RAPID_MOVES`, `MOTION_COMMANDS`, `SUPPRESS_COMMANDS`,
  `TRANSLATE_DRILL_CYCLES`, `SPINDLE_WAIT`, `OUTPUT_*`, `TOOL_CHANGE`,
  `LINENR` start/increment, unit factors) are set by `processArguments`,
  which is outside this file; they are a `Config` record here.
* The mutable globals written while parsing (`CURRENT_X/Y/Z`,
  `DRILL_RETRACT_MODE`, `MOTION_MODE`) are a `GState` record threaded
  through the functions; `lastcommand` is local to one `parse` call and is
  threaded separately (reset to `none` per path object, mirroring line 696).
* Python `dict` access `params["X"]` raising `KeyError` is modelled with
  `Except PErr`; `outstring[0]` on an empty list is `PErr.indexError`.
  The `message` branch with comments disabled executes `out = []`, which
  corrupts the string accumulator into a list of characters and makes the
  caller's `gcode += parse(obj)` raise `TypeError`; it is surfaced here as
  `PErr.messageTypeError` at that command.
* `linenumber()`-prefixing mutates `LINENR` once per emitted line, in
  emission order; it is modelled as the separate pass `numberLines` over
  the emitted lines, using the same `linenumber` step function.
* The unbounded `while 1` peck loop of `drill_translate` is modelled with
  explicit fuel (`peckLoop`); `none` means the fuel ran out, i.e. the
  source loop has not yet terminated within that bound.
-/

namespace BasePost

/-- A parameter token of one output line, as built by `parse`
(lines 737-779): the raw mnemonic or `(`/`)` wrappers, a letter with a
converted-and-formatted float (`.num`), a letter with a truncated integer
(`.intv`, for `T`/`H`/`S`), or a letter with a value passed through
`str()` unconverted (`.strv`, for `D`/`P`/`L` and the spindle-wait `P`). -/
inductive Token
  | raw (s : String)
  | num (letter : String) (v : ℚ)
  | intv (letter : String) (n : ℤ)
  | strv (letter : String) (v : ℚ)
deriving DecidableEq, Repr

/-- One emitted output line (before the optional `N...` line-number pass).
Constructors follow the emission sites of the source:
`cmdLine` is `format_outstring(outstring)` from `parse` (line 838);
`text` is a fixed comment/passthrough line; `origCycleComment` is the
commented original cycle command of `drill_translate` (lines 863-866);
`rapidZ`/`rapidXY`/`feedZ`/`dwellP` are the `"G0 Z.."`, `"G0 X.. Y.."`,
`"G1 Z.. F.."`, `"G4 P.."` lines of `drill_translate`; `modeAbs`/`modeRel`
are its `"G90"` / `"G91"` force/restore lines. -/
inductive Line
  | text (s : String)
  | cmdLine (toks : List Token)
  | origCycleComment (toks : List Token)
  | rapidZ (z : ℚ)
  | rapidXY (x y : ℚ)
  | feedZ (z f : ℚ)
  | dwellP (p : ℚ)
  | modeAbs
  | modeRel
deriving DecidableEq, Repr

/-- Python exceptions that can escape the modelled code. -/
inductive PErr
  | keyError (k : String)
  | indexError
  | messageTypeError
deriving DecidableEq, Repr

/-- The configuration globals of the script (resolved by the external
`processArguments` before `export` runs). -/
structure Config where
  outputComments : Bool
  outputLineNumbers : Bool
  modal : Bool
  translateDrillCycles : Bool
  outputToolChange : Bool
  lineNumberStart : ℤ
  lineIncrement : ℤ
  rapidMoves : List String
  motionCommands : List String
  suppressCommands : List String
  spindleWait : ℚ
  toolChangeLines : List String
  lengthFactor : ℚ
  speedFactor : ℚ
deriving DecidableEq, Repr

/-- The mutable globals shared across `parse` calls: current position
(`CURRENT_X/Y/Z`, lines 515-517) and the modal drill-retract and motion
modes (`DRILL_RETRACT_MODE`, `MOTION_MODE`). -/
structure GState where
  currentX : ℚ
  currentY : ℚ
  currentZ : ℚ
  drillRetractMode : String
  motionMode : String
deriving DecidableEq, Repr

/-- One path command: mnemonic plus named numeric parameters
(`c.Name`, `c.Parameters`).  Parameters are an association list looked up
by letter, mirroring the Python dict. -/
structure Command where
  name : String
  params : List (String × ℚ)
deriving DecidableEq, Repr

/-- The fixed parameter emission order of `parse` (lines 699-719). -/
def paramsOrder : List String :=
  ["X", "Y", "Z", "A", "B", "C", "U", "V", "W", "I", "J", "K",
   "F", "S", "T", "Q", "R", "L", "P"]

/-- Python `int()` truncation toward zero. -/
def truncInt (v : ℚ) : ℤ := if 0 ≤ v then ⌊v⌋ else -⌊-v⌋

/-- Token for one present parameter, following the branch chain of `parse`
lines 751-779: `F` is dropped on rapid moves and dropped when the
converted speed is not strictly positive; `T`/`H`/`S` truncate to int;
`D`/`P`/`L` pass the raw value through `str()`; `A`/`B`/`C` format without
unit conversion; every other letter converts as a length. -/
def paramToken (cfg : Config) (cname : String) (p : String) (v : ℚ) : Option Token :=
  if p = "F" then
    if cfg.rapidMoves.contains cname then none
    else if 0 < v * cfg.speedFactor then some (.num "F" (v * cfg.speedFactor)) else none
  else if p = "T" ∨ p = "H" ∨ p = "S" then some (.intv p (truncInt v))
  else if p = "D" ∨ p = "P" ∨ p = "L" then some (.strv p v)
  else if p = "A" ∨ p = "B" ∨ p = "C" then some (.num p v)
  else some (.num p (v * cfg.lengthFactor))

/-- The parameter tokens of one command, in `paramsOrder`, skipping absent
parameters (`if param in c.Parameters`, line 750). -/
def paramTokens (cfg : Config) (c : Command) : List Token :=
  paramsOrder.filterMap fun p => (c.params.lookup p).bind (paramToken cfg c.name p)

/-- The `outstring` of `parse` lines 738-746: the mnemonic (popped again
when the modal option is on and it equals `lastcommand`) followed by the
parameter tokens. -/
def buildToks (cfg : Config) (last : Option String) (c : Command) : List Token :=
  (if cfg.modal = true ∧ last = some c.name then [] else [Token.raw c.name])
    ++ paramTokens cfg c

/-- Literal-passthrough marker (lines 841-844): a command whose name
matches `^\(MC_RUN_COMMAND: ([^)]+)\)$` has its payload emitted verbatim. -/
def mcRunPayload (name : String) : Option String :=
  if (name.startsWith "(MC_RUN_COMMAND: " && name.endsWith ")") = true then
    let payload := (name.drop 17).dropRight 1
    if (payload != "" && !payload.any (· = ')')) = true then some payload else none
  else none

/-- State updates of `parse` lines 785-797, in source order: position
components for present axes of motion commands, then drill-retract mode,
then motion mode. -/
def gstUpdate (cfg : Config) (gst : GState) (c : Command) : GState :=
  let g1 :=
    if cfg.motionCommands.contains c.name then
      { gst with
        currentX := (c.params.lookup "X").getD gst.currentX
        currentY := (c.params.lookup "Y").getD gst.currentY
        currentZ := (c.params.lookup "Z").getD gst.currentZ }
    else gst
  let g2 := if c.name = "G98" ∨ c.name = "G99" then { g1 with drillRetractMode := c.name } else g1
  let g3 := if c.name = "G90" ∨ c.name = "G91" then { g2 with motionMode := c.name } else g2
  g3

/-- The preliminary movements of `drill_translate` (lines 914-932): rapid
up to the retract height when below it, rapid to the hole X/Y, and a feed
move down to the retract height when above it (`G1` because the retract
height may be below the surface).  Arguments are post-adjustment values;
emission converts with `lengthFactor`. -/
def dtPrelim (cfg : Config) (curZ dX dY rZ fConv : ℚ) : List Line :=
  (if curZ < rZ then [Line.rapidZ (rZ * cfg.lengthFactor)] else [])
    ++ [Line.rapidXY (dX * cfg.lengthFactor) (dY * cfg.lengthFactor)]
    ++ (if rZ < curZ then [Line.feedZ (rZ * cfg.lengthFactor) fConv] else [])

/-- The `while 1` peck loop of `drill_translate` for `G83` (lines
949-983), with explicit fuel: from the last stop depth, rapid to just
short of it (except on the first iteration, when it still equals the
retract height), step down by the peck increment; a step still above the
hole bottom plunges, retracts fully and repeats, otherwise a final plunge
exactly to depth and a retract end the loop.  `none` means the fuel bound
was hit before the source loop terminated. -/
def peckLoop (cfg : Config) (drillZ retractZ q aBit fConv : ℚ) :
    ℕ → ℚ → Option (List Line)
  | 0, _ => none
  | fuel + 1, lastStop =>
    let clr : List Line :=
      if lastStop ≠ retractZ then [Line.rapidZ ((lastStop + aBit) * cfg.lengthFactor)] else []
    let nextStop := lastStop - q
    if drillZ < nextStop then
      match peckLoop cfg drillZ retractZ q aBit fConv fuel nextStop with
      | none => none
      | some rest =>
        some (clr ++ Line.feedZ (nextStop * cfg.lengthFactor) fConv ::
          Line.rapidZ (retractZ * cfg.lengthFactor) :: rest)
    else
      some (clr ++ [Line.feedZ (drillZ * cfg.lengthFactor) fConv,
        Line.rapidZ (retractZ * cfg.lengthFactor)])

/-- `drill_translate` (lines 849-991).  In source order: comment the
original command (an empty `outstring` would make `outstring[0]` raise
IndexError), fetch X/Y/Z/R (KeyError when absent), reject the cycle when
the raw retract height is below the raw hole depth, adjust for relative
mode, raise the retract height to the current Z in G98 return mode, fetch
F (and P for G82, Q for G83), then emit: forced `G90` when in relative
mode, preliminary movements, the drill moves, and the `G91` restore. -/
def drill_translate (cfg : Config) (gst : GState) (outstr : List Token)
    (cmd : String) (ps : List (String × ℚ)) (fuel : ℕ) :
    Except PErr (Option (List Line)) :=
  if cfg.outputComments = true ∧ outstr = [] then .error .indexError else
  match ps.lookup "X", ps.lookup "Y", ps.lookup "Z", ps.lookup "R" with
  | none, _, _, _ => .error (.keyError "X")
  | some _, none, _, _ => .error (.keyError "Y")
  | some _, some _, none, _ => .error (.keyError "Z")
  | some _, some _, some _, none => .error (.keyError "R")
  | some x, some y, some z, some r =>
    let commentLines : List Line :=
      if cfg.outputComments = true then [Line.origCycleComment outstr] else []
    if r < z then
      .ok (some (commentLines ++ [Line.text "(drill cycle error: R less than Z )"]))
    else
      let dX := if gst.motionMode = "G91" then x + gst.currentX else x
      let dY := if gst.motionMode = "G91" then y + gst.currentY else y
      let dZ := if gst.motionMode = "G91" then z + gst.currentZ else z
      let rZ0 := if gst.motionMode = "G91" then r + gst.currentZ else r
      let rZ := if gst.drillRetractMode = "G98" ∧ rZ0 ≤ gst.currentZ then gst.currentZ else rZ0
      match ps.lookup "F" with
      | none => .error (.keyError "F")
      | some fd =>
        let fConv := fd * cfg.speedFactor
        let modeLines : List Line := if gst.motionMode = "G91" then [Line.modeAbs] else []
        let restoreLines : List Line := if gst.motionMode = "G91" then [Line.modeRel] else []
        let prelim := dtPrelim cfg gst.currentZ dX dY rZ fConv
        if cmd = "G81" ∨ cmd = "G82" then
          match (if cmd = "G82" then (ps.lookup "P").map (fun p => [Line.dwellP p]) else some []) with
          | none => .error (.keyError "P")
          | some dwellLines =>
            .ok (some (commentLines ++ modeLines ++ prelim
              ++ [Line.feedZ (dZ * cfg.lengthFactor) fConv] ++ dwellLines
              ++ [Line.rapidZ (rZ * cfg.lengthFactor)] ++ restoreLines))
        else
          match ps.lookup "Q" with
          | none => .error (.keyError "Q")
          | some qv =>
            if qv ≠ 0 then
              match peckLoop cfg dZ rZ qv (qv * (1/20)) fConv fuel rZ with
              | none => .ok none
              | some moves =>
                .ok (some (commentLines ++ modeLines ++ prelim ++ moves ++ restoreLines))
            else .ok (some (commentLines ++ modeLines ++ prelim ++ restoreLines))

/-- Tail of the per-command processing shared by every branch of `parse`:
comment-wrapping of suppressed commands (lines 832-834), emission of the
remaining `outstring` when non-empty (lines 837-838), and the
`MC_RUN_COMMAND` literal passthrough (lines 841-844). -/
def tailLines (cfg : Config) (c : Command) (toks : List Token) : List Line :=
  let toks2 :=
    if cfg.suppressCommands.contains c.name = true
    then Token.raw "(" :: (toks ++ [Token.raw ")"]) else toks
  (if 1 ≤ toks2.length then [Line.cmdLine toks2] else [])
    ++ (match mcRunPayload c.name with | some p => [Line.text p] | none => [])

/-- One iteration of the command loop of `parse` (lines 737-844): build
`outstring`, update the trackers, then the drill-translation, spindle-wait,
tool-change, `message` and suppression/emission branches in source order.
Returns the emitted lines, the new `lastcommand` and the new globals. -/
def processCommand (cfg : Config) (fuel : ℕ) (last : Option String) (gst : GState)
    (c : Command) : Except PErr (Option (List Line × Option String × GState)) :=
  if cfg.translateDrillCycles = true ∧ (c.name = "G81" ∨ c.name = "G82" ∨ c.name = "G83") then
    match drill_translate cfg (gstUpdate cfg gst c) (buildToks cfg last c) c.name c.params fuel with
    | .error e => .error e
    | .ok none => .ok none
    | .ok (some dLines) =>
      .ok (some (dLines ++ tailLines cfg c [], some c.name, gstUpdate cfg gst c))
  else if 0 < cfg.spindleWait ∧ (c.name = "M3" ∨ c.name = "M03" ∨ c.name = "M4" ∨ c.name = "M04") then
    .ok (some ([Line.cmdLine (buildToks cfg last c),
      Line.cmdLine [Token.raw "G4", Token.strv "P" cfg.spindleWait]] ++ tailLines cfg c [],
      some c.name, gstUpdate cfg gst c))
  else if c.name = "M6" ∨ c.name = "M06" then
    .ok (some ((if cfg.outputComments = true then [Line.text "(Begin toolchange)"] else [])
      ++ (if cfg.outputToolChange = true
          then cfg.toolChangeLines.map Line.text ++ tailLines cfg c (buildToks cfg last c)
          else tailLines cfg c (Token.raw "(" :: (buildToks cfg last c ++ [Token.raw ")"]))),
      some c.name, gstUpdate cfg gst c))
  else if c.name = "message" then
    if cfg.outputComments = true then
      match buildToks cfg last c with
      | [] => .error .indexError
      | _ :: ts => .ok (some (tailLines cfg c ts, some c.name, gstUpdate cfg gst c))
    else .error .messageTypeError
  else .ok (some (tailLines cfg c (buildToks cfg last c), some c.name, gstUpdate cfg gst c))

/-- The command loop of `parse` over a path's command list, threading
`lastcommand` and the globals and concatenating emitted lines. -/
def parseCommands (cfg : Config) (fuel : ℕ) :
    Option String → GState → List Command → Except PErr (Option (List Line × GState))
  | _, gst, [] => .ok (some ([], gst))
  | last, gst, c :: rest =>
    match processCommand cfg fuel last gst c with
    | .error e => .error e
    | .ok none => .ok none
    | .ok (some (lines, last2, gst2)) =>
      match parseCommands cfg fuel last2 gst2 rest with
      | .error e => .error e
      | .ok none => .ok none
      | .ok (some (lines2, gst3)) => .ok (some (lines ++ lines2, gst3))

/-- `parse` on one simple path object (lines 687-846): a fresh local
`lastcommand = None` (line 696), an optional `(Path: label)` comment, then
the command loop. -/
def parsePath (cfg : Config) (fuel : ℕ) (gst : GState) (label : String)
    (cmds : List Command) : Except PErr (Option (List Line × GState)) :=
  match parseCommands cfg fuel none gst cmds with
  | .error e => .error e
  | .ok none => .ok none
  | .ok (some (lines, gst2)) =>
    .ok (some ((if cfg.outputComments = true then [Line.text ("(Path: " ++ label ++ ")")] else [])
      ++ lines, gst2))

/-- `linenumber` (lines 667-674): empty prefix when line numbers are off;
otherwise the `N<LINENR> ` prefix and the incremented counter. -/
def linenumber (cfg : Config) (n : ℤ) : String × ℤ :=
  if cfg.outputLineNumbers = true then ("N" ++ toString n ++ " ", n + cfg.lineIncrement)
  else ("", n)

/-- The line-number pass: every emitted line receives one `linenumber()`
call, in emission order (each emission site of the source prepends
`linenumber()` exactly once per line). -/
def numberLines (cfg : Config) : ℤ → List Line → List (String × Line)
  | _, [] => []
  | n, l :: ls =>
    let r := linenumber cfg n
    (r.1, l) :: numberLines cfg r.2 ls

/-- The plunge depths (`G1 Z...` targets) of a drill expansion, in order. -/
def plungeDepths (r : List Line) : List ℚ :=
  r.filterMap fun l => match l with | Line.feedZ d _ => some d | _ => none

/-- Whether a line moves the tool (the drill-expansion motion lines). -/
def Line.isMotion : Line → Bool
  | .rapidZ _ => true
  | .rapidXY _ _ => true
  | .feedZ _ _ => true
  | _ => false

/-- A command name that reaches the plain emission path of `parse`: not a
translated drill cycle, not a spindle-wait start, not a tool change, not
`message`, not comment-suppressed, not a literal-passthrough marker. -/
def PlainName (cfg : Config) (n : String) : Prop :=
  ¬(cfg.translateDrillCycles = true ∧ (n = "G81" ∨ n = "G82" ∨ n = "G83"))
  ∧ ¬(0 < cfg.spindleWait ∧ (n = "M3" ∨ n = "M03" ∨ n = "M4" ∨ n = "M04"))
  ∧ ¬(n = "M6" ∨ n = "M06")
  ∧ n ≠ "message"
  ∧ cfg.suppressCommands.contains n = false
  ∧ mcRunPayload n = none

instance (cfg : Config) (n : String) : Decidable (PlainName cfg n) := by
  unfold PlainName; infer_instance

instance {ε α : Type} [DecidableEq ε] [DecidableEq α] : DecidableEq (Except ε α) :=
  fun a b =>
    match a, b with
    | .error e1, .error e2 =>
      if h : e1 = e2 then .isTrue (by rw [h]) else .isFalse (by intro hc; cases hc; exact h rfl)
    | .ok v1, .ok v2 =>
      if h : v1 = v2 then .isTrue (by rw [h]) else .isFalse (by intro hc; cases hc; exact h rfl)
    | .error _, .ok _ => .isFalse (by intro hc; cases hc)
    | .ok _, .error _ => .isFalse (by intro hc; cases hc)

/-- The bundle of peck-loop output properties claimed for `G83` with a
positive peck increment: every plunge is immediately followed by a rapid
retract to the retract height, the plunge depths are strictly decreasing,
none is below the hole bottom, and the sequence ends with a final plunge
exactly to the hole bottom followed by one retract. -/
def PeckOutcome (cfg : Config) (drillZ retractZ fConv : ℚ) (r : List Line) : Prop :=
  List.Chain' (fun a b => ∀ d fc, a = Line.feedZ d fc →
    b = Line.rapidZ (retractZ * cfg.lengthFactor)) r
  ∧ List.Chain' (· > ·) (plungeDepths r)
  ∧ (∀ d ∈ plungeDepths r, drillZ * cfg.lengthFactor ≤ d)
  ∧ (∃ r₀, r = r₀ ++ [Line.feedZ (drillZ * cfg.lengthFactor) fConv,
      Line.rapidZ (retractZ * cfg.lengthFactor)])

/-- Rejection behaviour of a geometrically invalid drill cycle, at the
`parse` level: the cycle contributes exactly the optional commented
original plus the diagnostic comment, none of which is a motion line, and
the command loop continues with the rest of the commands from the normally
updated state. -/
def RejectedCycleOutcome (cfg : Config) (fuel : ℕ) (last : Option String)
    (gst : GState) (c : Command) (rest : List Command) : Prop :=
  ∃ cyc,
    cyc = (if cfg.outputComments = true
        then [Line.origCycleComment (buildToks cfg last c)] else [])
      ++ [Line.text "(drill cycle error: R less than Z )"]
    ∧ processCommand cfg fuel last gst c = .ok (some (cyc, some c.name, gstUpdate cfg gst c))
    ∧ (∀ l ∈ cyc, l.isMotion = false)
    ∧ parseCommands cfg fuel last gst (c :: rest) =
        (match parseCommands cfg fuel (some c.name) (gstUpdate cfg gst c) rest with
         | .ok (some (L, g)) => .ok (some (cyc ++ L, g))
         | other => other)

/-- Modal suppression over a consecutive pair: the line emitted for the
second of two same-mnemonic commands carries the mnemonic token exactly
when the modal option is disabled. -/
def ModalPairOutcome (cfg : Config) (fuel : ℕ) (l0 : Option String) (gst : GState)
    (c1 c2 : Command) : Prop :=
  ∃ L1 g1, parseCommands cfg fuel l0 gst [c1, c2] =
    .ok (some (L1 ++ [Line.cmdLine ((if cfg.modal = true then [] else [Token.raw c2.name])
      ++ paramTokens cfg c2)], g1))

/-- The first command of a freshly parsed path object always keeps its
mnemonic token (the modal memory starts at `None` for each `parse` call). -/
def FreshPathOutcome (cfg : Config) (fuel : ℕ) (gst : GState) (label : String)
    (c : Command) (rest : List Command) : Prop :=
  ∀ L2 g2, parsePath cfg fuel gst label (c :: rest) = .ok (some (L2, g2)) →
    ∃ tail, L2 =
      (if cfg.outputComments = true then [Line.text ("(Path: " ++ label ++ ")")] else [])
      ++ Line.cmdLine (Token.raw c.name :: paramTokens cfg c) :: tail

/-- A representative metric configuration: comments/line numbers off,
modal on, drill translation on, the usual rapid and motion command sets,
the suppression set installed by `export` when drill translation is on
(line 542), mm output (`lengthFactor` 1, `speedFactor` 60 for mm/min). -/
def cfgM : Config where
  outputComments := false
  outputLineNumbers := false
  modal := true
  translateDrillCycles := true
  outputToolChange := true
  lineNumberStart := 100
  lineIncrement := 10
  rapidMoves := ["G0", "G00"]
  motionCommands := ["G0", "G00", "G1", "G01", "G2", "G02", "G3", "G03"]
  suppressCommands := ["G99", "G98", "G80"]
  spindleWait := 0
  toolChangeLines := []
  lengthFactor := 1
  speedFactor := 60

/-- `cfgM` with line numbering enabled at start 100, increment 10. -/
def cfgN : Config := { cfgM with outputLineNumbers := true }

/-- A representative machine state: at X0 Y0 Z20, `G99` drill-retract
mode, absolute motion mode. -/
def gstM : GState where
  currentX := 0
  currentY := 0
  currentZ := 20
  drillRetractMode := "G99"
  motionMode := "G90"

/-- A parameter can only yield an `F` number token through the feed
branch: the letter is `F`, the command is not a rapid move, and the
converted speed is strictly positive. -/
theorem paramToken_eq_numF (cfg : Config) (cname p : String) (v w : ℚ)
    (h : paramToken cfg cname p v = some (Token.num "F" w)) :
    p = "F" ∧ cfg.rapidMoves.contains cname = false ∧ 0 < v * cfg.speedFactor := by
  unfold paramToken at h
  split_ifs at h with hF hrap hpos hTHS hDPL hABC
  · exact ⟨hF, by simpa using hrap, hpos⟩
  · simp at h
  · simp at h
  · simp only [Option.some.injEq, Token.num.injEq] at h
    exact absurd h.1 hF
  · simp only [Option.some.injEq, Token.num.injEq] at h
    exact absurd h.1 hF

/-- No `F` number token is emitted for a command that is a rapid move or
whose feed converts to a non-positive speed. -/
theorem paramTokens_no_F (cfg : Config) (c : Command)
    (h : cfg.rapidMoves.contains c.name = true ∨
      (∀ fv, c.params.lookup "F" = some fv → ¬0 < fv * cfg.speedFactor)) :
    ∀ v, Token.num "F" v ∉ paramTokens cfg c := by
  intro v hv
  rw [paramTokens, List.mem_filterMap] at hv
  obtain ⟨p, _, hbind⟩ := hv
  rcases hl : c.params.lookup p with _ | w
  · rw [hl] at hbind; simp at hbind
  · rw [hl] at hbind
    simp only [Option.some_bind] at hbind
    obtain ⟨hpF, hrap, hpos⟩ := paramToken_eq_numF cfg c.name p w v hbind
    subst hpF
    rcases h with h | h
    · rw [h] at hrap; cases hrap
    · exact h w hl hpos

/-- No `F` number token appears in the whole `outstring` under the same
conditions (the only other tokens are the raw mnemonic). -/
theorem buildToks_no_F (cfg : Config) (last : Option String) (c : Command)
    (h : cfg.rapidMoves.contains c.name = true ∨
      (∀ fv, c.params.lookup "F" = some fv → ¬0 < fv * cfg.speedFactor)) :
    ∀ v, Token.num "F" v ∉ buildToks cfg last c := by
  intro v hv
  rcases List.mem_append.mp hv with hv | hv
  · split at hv <;> simp at hv
  · exact paramTokens_no_F cfg c h v hv

/-- A command carrying an `X` parameter always produces at least one
parameter token (`X` is first in the emission order and never dropped). -/
theorem paramTokens_ne_nil (cfg : Config) (c : Command) (x : ℚ)
    (hX : c.params.lookup "X" = some x) : paramTokens cfg c ≠ [] := by
  unfold paramTokens paramsOrder
  rw [List.filterMap_cons, hX]
  simp [paramToken]

/-- Hence `outstring` is never empty for such a command. -/
theorem buildToks_ne_nil (cfg : Config) (last : Option String) (c : Command) (x : ℚ)
    (hX : c.params.lookup "X" = some x) : buildToks cfg last c ≠ [] := by
  intro h
  rcases List.append_eq_nil.mp h with ⟨_, h2⟩
  exact paramTokens_ne_nil cfg c x hX h2

/-- On the plain emission path (no drill translation, spindle wait, tool
change, `message`, suppression or passthrough), one command emits exactly
its `outstring` line — when that is non-empty — and updates the trackers. -/
theorem processCommand_plain (cfg : Config) (fuel : ℕ) (last : Option String)
    (gst : GState) (c : Command) (h : PlainName cfg c.name) :
    processCommand cfg fuel last gst c =
      .ok (some ((if 1 ≤ (buildToks cfg last c).length
          then [Line.cmdLine (buildToks cfg last c)] else []),
        some c.name, gstUpdate cfg gst c)) := by
  obtain ⟨h1, h2, h3, h4, h5, h6⟩ := h
  unfold processCommand
  rw [if_neg h1, if_neg h2, if_neg h3, if_neg h4]
  unfold tailLines
  rw [h5, h6]
  simp

/-- The early-return path of `drill_translate` (lines 876-878): when the
raw retract height is below the raw hole depth, only the optional
commented original and the diagnostic comment are produced. -/
theorem drill_translate_reject (cfg : Config) (gst : GState) (outstr : List Token)
    (cmd : String) (ps : List (String × ℚ)) (fuel : ℕ) (x y z r : ℚ)
    (ho : outstr ≠ [])
    (hX : ps.lookup "X" = some x) (hY : ps.lookup "Y" = some y)
    (hZ : ps.lookup "Z" = some z) (hR : ps.lookup "R" = some r)
    (hrz : r < z) :
    drill_translate cfg gst outstr cmd ps fuel =
      .ok (some ((if cfg.outputComments = true then [Line.origCycleComment outstr] else [])
        ++ [Line.text "(drill cycle error: R less than Z )"])) := by
  unfold drill_translate
  rw [if_neg (fun hc => ho hc.2), hX, hY, hZ, hR]
  simp [hrz]

/-- A drill-cycle command missing its `R` parameter (but carrying X, Y, Z)
raises exactly `KeyError "R"` (line 874), whatever the cycle mnemonic. -/
theorem drill_translate_keyErrR (cfg : Config) (gst : GState) (outstr : List Token)
    (cmd : String) (ps : List (String × ℚ)) (fuel : ℕ) (x y z : ℚ)
    (ho : outstr ≠ [])
    (hX : ps.lookup "X" = some x) (hY : ps.lookup "Y" = some y)
    (hZ : ps.lookup "Z" = some z) (hR : ps.lookup "R" = none) :
    drill_translate cfg gst outstr cmd ps fuel = .error (.keyError "R") := by
  unfold drill_translate
  rw [if_neg (fun hc => ho hc.2), hX, hY, hZ, hR]

/-- Claim C1: a drilling cycle whose retract height is below the
hole-bottom depth is rejected: a diagnostic comment is emitted, no motion
line is produced for that cycle, and the command loop continues with the
rest of the program from the normally updated state. -/
theorem drill_reject_retract_below_depth (cfg : Config) (fuel : ℕ)
    (last : Option String) (gst : GState) (c : Command) (rest : List Command)
    (x y z r : ℚ)
    (hname : c.name = "G81" ∨ c.name = "G82" ∨ c.name = "G83")
    (htr : cfg.translateDrillCycles = true)
    (hX : c.params.lookup "X" = some x) (hY : c.params.lookup "Y" = some y)
    (hZ : c.params.lookup "Z" = some z) (hR : c.params.lookup "R" = some r)
    (hrz : r < z)
    (hsup : cfg.suppressCommands.contains c.name = false) :
    RejectedCycleOutcome cfg fuel last gst c rest := by
  have hmc : mcRunPayload c.name = none := by
    rcases hname with h | h | h <;> rw [h] <;> decide
  have htail : tailLines cfg c [] = [] := by
    unfold tailLines
    rw [hsup, hmc]
    simp
  have hP : processCommand cfg fuel last gst c =
      .ok (some ((if cfg.outputComments = true
          then [Line.origCycleComment (buildToks cfg last c)] else [])
        ++ [Line.text "(drill cycle error: R less than Z )"],
        some c.name, gstUpdate cfg gst c)) := by
    unfold processCommand
    rw [if_pos ⟨htr, hname⟩,
      drill_translate_reject cfg (gstUpdate cfg gst c) (buildToks cfg last c)
        c.name c.params fuel x y z r (buildToks_ne_nil cfg last c x hX) hX hY hZ hR hrz,
      htail]
    simp
  refine ⟨_, rfl, hP, ?_, ?_⟩
  · intro l hl
    rcases List.mem_append.mp hl with hl | hl
    · split at hl
      · simp only [List.mem_singleton] at hl
        subst hl; rfl
      · simp at hl
    · simp only [List.mem_singleton] at hl
      subst hl; rfl
  · show parseCommands cfg fuel last gst (c :: rest) = _
    simp only [parseCommands]
    rw [hP]
    cases hrest : parseCommands cfg fuel (some c.name) (gstUpdate cfg gst c) rest with
    | error e => simp [hrest]
    | ok o =>
      cases o with
      | none => simp [hrest]
      | some pr =>
        obtain ⟨L, g⟩ := pr
        simp [hrest]

/-- Claim C1 witness: a concrete `G81` with R below Z. -/
theorem drill_reject_retract_below_depth_w :
    RejectedCycleOutcome cfgM 1 none gstM
      ⟨"G81", [("X", 1), ("Y", 2), ("Z", -1), ("R", -5), ("F", 1)]⟩ [] :=
  drill_reject_retract_below_depth cfgM 1 none gstM
    ⟨"G81", [("X", 1), ("Y", 2), ("Z", -1), ("R", -5), ("F", 1)]⟩ []
    1 2 (-1) (-5) (Or.inl rfl) rfl rfl rfl rfl rfl (by norm_num) rfl

/-- Claim C2 counterexample: a feed converting to ≤ 0 never aborts the
export with an error.  A `G1` carrying `F = 0` has the `F` token silently
dropped (line 756's `> 0.0` guard has no else branch) and the line is
still emitted; and a translated `G81` carrying `F = 0` is expanded with
the unchecked converted feed on its plunge lines (lines 907-911 build the
` F..` suffix with no positivity test), emitting `F0` moves instead of
failing. -/
theorem feed_nonpositive_silently_dropped_cx :
    (processCommand cfgM 1 none gstM ⟨"G1", [("X", 1), ("F", 0)]⟩ =
      .ok (some ([Line.cmdLine [Token.raw "G1", Token.num "X" 1]], some "G1",
        { currentX := 1, currentY := 0, currentZ := 20,
          drillRetractMode := "G99", motionMode := "G90" }))
    ∧ (∀ v : ℚ, Token.num "F" v ∉ [Token.raw "G1", Token.num "X" 1]))
    ∧ drill_translate cfgM gstM [Token.raw "G81"] "G81"
        [("X", 1), ("Y", 2), ("Z", -10), ("R", 5), ("F", 0)] 1 =
      .ok (some [Line.rapidXY 1 2, Line.feedZ 5 0, Line.feedZ (-10) 0, Line.rapidZ 5]) := by
  refine ⟨⟨?_, ?_⟩, ?_⟩
  · simp [processCommand, tailLines, buildToks, paramTokens, paramsOrder, paramToken,
      gstUpdate, cfgM, gstM, List.lookup, (by decide : mcRunPayload "G1" = none)]
  · intro v
    simp
  · simp [drill_translate, dtPrelim, cfgM, gstM, List.lookup]
    norm_num

/-- Claim C2 (amended): a feed value converting to ≤ 0 never makes
emission fail.  On the plain emission path the `F` token is silently
omitted and the line is still emitted with its remaining parameters; on a
translated drill cycle the expander passes the converted feed through
unchecked, so the expansion's feed moves carry the non-positive `F` value
(and the cycle's own command line is never emitted). -/
theorem feed_nonpositive_dropped :
    (∀ (cfg : Config) (fuel : ℕ) (last : Option String) (gst : GState)
        (c : Command) (fv : ℚ),
      PlainName cfg c.name →
      c.params.lookup "F" = some fv →
      fv * cfg.speedFactor ≤ 0 →
      processCommand cfg fuel last gst c =
        .ok (some ((if 1 ≤ (buildToks cfg last c).length
            then [Line.cmdLine (buildToks cfg last c)] else []),
          some c.name, gstUpdate cfg gst c))
      ∧ ∀ v, Token.num "F" v ∉ buildToks cfg last c)
    ∧ (∀ (cfg : Config) (gst : GState) (outstr : List Token)
        (ps : List (String × ℚ)) (fuel : ℕ) (x y z r fd : ℚ),
      ¬(cfg.outputComments = true ∧ outstr = []) →
      ps.lookup "X" = some x → ps.lookup "Y" = some y →
      ps.lookup "Z" = some z → ps.lookup "R" = some r →
      ps.lookup "F" = some fd →
      fd * cfg.speedFactor ≤ 0 →
      ¬r < z → gst.motionMode ≠ "G91" →
      drill_translate cfg gst outstr "G81" ps fuel =
        .ok (some ((if cfg.outputComments = true
            then [Line.origCycleComment outstr] else [])
          ++ dtPrelim cfg gst.currentZ x y
              (if gst.drillRetractMode = "G98" ∧ r ≤ gst.currentZ then gst.currentZ else r)
              (fd * cfg.speedFactor)
          ++ [Line.feedZ (z * cfg.lengthFactor) (fd * cfg.speedFactor),
            Line.rapidZ ((if gst.drillRetractMode = "G98" ∧ r ≤ gst.currentZ
                then gst.currentZ else r) * cfg.lengthFactor)]))) := by
  constructor
  · intro cfg fuel last gst c fv hplain hF hle
    refine ⟨processCommand_plain cfg fuel last gst c hplain, ?_⟩
    refine buildToks_no_F cfg last c (Or.inr ?_)
    intro w hw
    rw [hF] at hw
    obtain rfl := Option.some.inj hw
    exact not_lt.mpr hle
  · intro cfg gst outstr ps fuel x y z r fd ho hX hY hZ hR hF _hfle hrz hmode
    unfold drill_translate
    rw [if_neg ho, hX, hY, hZ, hR]
    simp [hrz, hmode, hF]

/-- Claim C2 witness: the amended statement at `G1 X1 F0` on the plain
path and at a `G81` cycle with `F = 0`. -/
theorem feed_nonpositive_dropped_w :
    (processCommand cfgM 1 none gstM ⟨"G1", [("X", 1), ("F", 0)]⟩ =
      .ok (some ((if 1 ≤ (buildToks cfgM none ⟨"G1", [("X", 1), ("F", 0)]⟩).length
          then [Line.cmdLine (buildToks cfgM none ⟨"G1", [("X", 1), ("F", 0)]⟩)] else []),
        some "G1", gstUpdate cfgM gstM ⟨"G1", [("X", 1), ("F", 0)]⟩))
    ∧ ∀ v, Token.num "F" v ∉ buildToks cfgM none ⟨"G1", [("X", 1), ("F", 0)]⟩)
    ∧ drill_translate cfgM gstM [Token.raw "G81"] "G81"
        [("X", 1), ("Y", 2), ("Z", -10), ("R", 5), ("F", 0)] 1 =
      .ok (some ((if cfgM.outputComments = true
          then [Line.origCycleComment [Token.raw "G81"]] else [])
        ++ dtPrelim cfgM gstM.currentZ 1 2
            (if gstM.drillRetractMode = "G98" ∧ 5 ≤ gstM.currentZ then gstM.currentZ else 5)
            (0 * cfgM.speedFactor)
        ++ [Line.feedZ ((-10) * cfgM.lengthFactor) (0 * cfgM.speedFactor),
          Line.rapidZ ((if gstM.drillRetractMode = "G98" ∧ 5 ≤ gstM.currentZ
              then gstM.currentZ else 5) * cfgM.lengthFactor)])) :=
  ⟨feed_nonpositive_dropped.1 cfgM 1 none gstM ⟨"G1", [("X", 1), ("F", 0)]⟩ 0
      (by decide) rfl (by norm_num),
    feed_nonpositive_dropped.2 cfgM gstM [Token.raw "G81"]
      [("X", 1), ("Y", 2), ("Z", -10), ("R", 5), ("F", 0)] 1 1 2 (-10) 5 0
      (by simp [cfgM]) rfl rfl rfl rfl rfl (by norm_num) (by norm_num) (by decide)⟩

/-- Claim C9: a rapid-move command carrying an `F` parameter emits its
line with no `F` token, whatever the feed value (line 752's
`command not in RAPID_MOVES` check). -/
theorem rapid_drops_feed (cfg : Config) (fuel : ℕ) (last : Option String)
    (gst : GState) (c : Command)
    (hplain : PlainName cfg c.name)
    (hrap : cfg.rapidMoves.contains c.name = true) :
    processCommand cfg fuel last gst c =
      .ok (some ((if 1 ≤ (buildToks cfg last c).length
          then [Line.cmdLine (buildToks cfg last c)] else []),
        some c.name, gstUpdate cfg gst c))
    ∧ ∀ v, Token.num "F" v ∉ buildToks cfg last c :=
  ⟨processCommand_plain cfg fuel last gst c hplain,
    buildToks_no_F cfg last c (Or.inl hrap)⟩

/-- Claim C9 witness: `G0 X1 F7` emits no `F` token. -/
theorem rapid_drops_feed_w :
    processCommand cfgM 1 none gstM ⟨"G0", [("X", 1), ("F", 7)]⟩ =
      .ok (some ((if 1 ≤ (buildToks cfgM none ⟨"G0", [("X", 1), ("F", 7)]⟩).length
          then [Line.cmdLine (buildToks cfgM none ⟨"G0", [("X", 1), ("F", 7)]⟩)] else []),
        some "G0", gstUpdate cfgM gstM ⟨"G0", [("X", 1), ("F", 7)]⟩))
    ∧ ∀ v, Token.num "F" v ∉ buildToks cfgM none ⟨"G0", [("X", 1), ("F", 7)]⟩ :=
  rapid_drops_feed cfgM 1 none gstM ⟨"G0", [("X", 1), ("F", 7)]⟩ (by decide) rfl

/-- Claim C5 counterexample: the concrete G81 expansion (Z=-10, R=5,
current Z=20, absolute mode, G99 retract mode, comments off) emits FOUR
motion lines — there is a feed-rate descent to the retract height
(`G1 Z5 F..`, line 925-932 of the source, emitted because current Z 20 is
above R 5) between the X/Y positioning and the plunge — so the expansion
is not the claimed positioning/plunge/retract sequence. -/
theorem g81_expansion_cx :
    drill_translate cfgM gstM [Token.raw "G81"] "G81"
      [("X", 1), ("Y", 2), ("Z", -10), ("R", 5), ("F", 1)] 1 =
      .ok (some [Line.rapidXY 1 2, Line.feedZ 5 60, Line.feedZ (-10) 60, Line.rapidZ 5])
    ∧ [Line.rapidXY 1 2, Line.feedZ 5 60, Line.feedZ (-10) 60, Line.rapidZ 5] ≠
      [Line.rapidXY 1 2, Line.feedZ (-10) 60, Line.rapidZ 5] := by
  constructor
  · simp [drill_translate, dtPrelim, cfgM, gstM, List.lookup]
    norm_num
  · decide

/-- Claim C5 (amended): the same cycle expands to exactly four lines, in
order: rapid X/Y positioning (the preliminary rapid retract is skipped
since current Z is already at or above R), feed-rate descent to the
retract height Z=5, linear plunge to Z=-10 at the given feed, rapid
retract to Z=5. -/
theorem g81_expansion_exact :
    drill_translate cfgM gstM [Token.raw "G81"] "G81"
      [("X", 1), ("Y", 2), ("Z", -10), ("R", 5), ("F", 1)] 1 =
      .ok (some [Line.rapidXY 1 2, Line.feedZ 5 60, Line.feedZ (-10) 60, Line.rapidZ 5]) := by
  simp [drill_translate, dtPrelim, cfgM, gstM, List.lookup]
  norm_num

/-- Claim C3 counterexample: a G83 with Q = 0 does not degenerate to a
single plunge — the `if params["Q"] != 0` guard (line 948) skips the whole
drill-move section, so no plunge to the final depth Z=-10 (and no final
retract) is emitted at all. -/
theorem peck_zero_q_no_plunge_cx :
    drill_translate cfgM gstM [Token.raw "G83"] "G83"
      [("X", 1), ("Y", 2), ("Z", -10), ("R", 5), ("F", 1), ("Q", 0)] 1 =
      .ok (some [Line.rapidXY 1 2, Line.feedZ 5 60])
    ∧ Line.feedZ (-10) 60 ∉ [Line.rapidXY 1 2, Line.feedZ 5 60] := by
  constructor
  · simp [drill_translate, dtPrelim, cfgM, gstM, List.lookup]
    norm_num
  · decide

/-- Claim C3 (amended): a G83 cycle with zero peck increment (retract not
below depth, absolute mode) emits only the optional commented original and
the preliminary movements — no plunge to depth and no closing retract. -/
theorem peck_zero_q_prelim_only (cfg : Config) (gst : GState) (outstr : List Token)
    (ps : List (String × ℚ)) (fuel : ℕ) (x y z r fd : ℚ)
    (ho : ¬(cfg.outputComments = true ∧ outstr = []))
    (hX : ps.lookup "X" = some x) (hY : ps.lookup "Y" = some y)
    (hZ : ps.lookup "Z" = some z) (hR : ps.lookup "R" = some r)
    (hF : ps.lookup "F" = some fd) (hQ : ps.lookup "Q" = some 0)
    (hrz : ¬r < z) (hmode : gst.motionMode ≠ "G91") :
    drill_translate cfg gst outstr "G83" ps fuel =
      .ok (some ((if cfg.outputComments = true then [Line.origCycleComment outstr] else [])
        ++ dtPrelim cfg gst.currentZ x y
            (if gst.drillRetractMode = "G98" ∧ r ≤ gst.currentZ then gst.currentZ else r)
            (fd * cfg.speedFactor))) := by
  unfold drill_translate
  rw [if_neg ho, hX, hY, hZ, hR]
  simp [hrz, hmode, hF, hQ]

/-- Claim C3 witness: the amended statement at the concrete Q=0 cycle. -/
theorem peck_zero_q_prelim_only_w :
    drill_translate cfgM gstM [Token.raw "G83"] "G83"
      [("X", 1), ("Y", 2), ("Z", -10), ("R", 5), ("F", 1), ("Q", 0)] 3 =
      .ok (some ((if cfgM.outputComments = true
          then [Line.origCycleComment [Token.raw "G83"]] else [])
        ++ dtPrelim cfgM gstM.currentZ 1 2
            (if gstM.drillRetractMode = "G98" ∧ 5 ≤ gstM.currentZ then gstM.currentZ else 5)
            (1 * cfgM.speedFactor))) :=
  peck_zero_q_prelim_only cfgM gstM [Token.raw "G83"]
    [("X", 1), ("Y", 2), ("Z", -10), ("R", 5), ("F", 1), ("Q", 0)] 3
    1 2 (-10) 5 1 (by simp [cfgM]) rfl rfl rfl rfl rfl rfl
    (by norm_num) (by decide)

/-- Claim C7 counterexample: two distinct drill commands missing their `R`
parameter abort processing with the very same error value (`KeyError "R"`,
line 874) — the propagated error does not carry the offending command's
identity, so it cannot surface it to the caller. -/
theorem error_identity_cx :
    processCommand cfgM 1 none gstM ⟨"G81", [("X", 1), ("Y", 2), ("Z", -10)]⟩ =
      .error (.keyError "R")
    ∧ processCommand cfgM 1 none gstM ⟨"G82", [("X", 1), ("Y", 2), ("Z", -10)]⟩ =
      .error (.keyError "R")
    ∧ (⟨"G81", [("X", 1), ("Y", 2), ("Z", -10)]⟩ : Command) ≠
      ⟨"G82", [("X", 1), ("Y", 2), ("Z", -10)]⟩ := by
  refine ⟨?_, ?_, by decide⟩ <;>
    simp [processCommand, drill_translate, buildToks, paramTokens, paramsOrder,
      paramToken, gstUpdate, cfgM, gstM, List.lookup]

/-- Claim C7 (amended): an error raised while processing a command does
propagate (it is not swallowed), but a drill cycle missing a parameter
raises an error naming only the parameter letter: any two cycle commands
with the same parameters produce identical error values, so the error does
not determine the offending command. -/
theorem missing_param_error_same_for_commands (cfg : Config) (fuel : ℕ)
    (last : Option String) (gst : GState) (n1 n2 : String)
    (ps : List (String × ℚ)) (x y z : ℚ)
    (h1 : n1 = "G81" ∨ n1 = "G82" ∨ n1 = "G83")
    (h2 : n2 = "G81" ∨ n2 = "G82" ∨ n2 = "G83")
    (htr : cfg.translateDrillCycles = true)
    (hX : ps.lookup "X" = some x) (hY : ps.lookup "Y" = some y)
    (hZ : ps.lookup "Z" = some z) (hR : ps.lookup "R" = none) :
    processCommand cfg fuel last gst ⟨n1, ps⟩ = .error (.keyError "R")
    ∧ processCommand cfg fuel last gst ⟨n2, ps⟩ = .error (.keyError "R") := by
  constructor
  · unfold processCommand
    rw [if_pos ⟨htr, h1⟩,
      drill_translate_keyErrR _ _ _ _ _ _ x y z
        (buildToks_ne_nil _ _ _ x hX) hX hY hZ hR]
  · unfold processCommand
    rw [if_pos ⟨htr, h2⟩,
      drill_translate_keyErrR _ _ _ _ _ _ x y z
        (buildToks_ne_nil _ _ _ x hX) hX hY hZ hR]

/-- Claim C7 witness: the amended statement at the concrete pair. -/
theorem missing_param_error_same_for_commands_w :
    processCommand cfgM 2 none gstM ⟨"G81", [("X", 1), ("Y", 2), ("Z", -10)]⟩ =
      .error (.keyError "R")
    ∧ processCommand cfgM 2 none gstM ⟨"G82", [("X", 1), ("Y", 2), ("Z", -10)]⟩ =
      .error (.keyError "R") :=
  missing_param_error_same_for_commands cfgM 2 none gstM "G81" "G82"
    [("X", 1), ("Y", 2), ("Z", -10)] 1 2 (-10)
    (Or.inl rfl) (Or.inr (Or.inl rfl)) rfl rfl rfl rfl rfl

/-- The `N` prefix attached by `numberLines` advances linearly: the line
at index `i` carries `start + increment * i`. -/
theorem numberLines_get (cfg : Config) (h : cfg.outputLineNumbers = true) :
    ∀ (ls : List Line) (s : ℤ) (i : ℕ),
      (numberLines cfg s ls).get? i =
        (ls.get? i).map (fun l => ("N" ++ toString (s + cfg.lineIncrement * i) ++ " ", l)) := by
  intro ls
  induction ls with
  | nil => intro s i; simp [numberLines]
  | cons a t ih =>
    intro s i
    cases i with
    | zero => simp [numberLines, linenumber, h]
    | succ j =>
      have harith : s + cfg.lineIncrement * ((j : ℤ) + 1) =
          (s + cfg.lineIncrement) + cfg.lineIncrement * j := by ring
      simp only [numberLines, linenumber, if_pos h, List.get?_cons_succ,
        ih (s + cfg.lineIncrement) j]
      rw [Nat.cast_succ, harith]

/-- Claim C8: with line numbering enabled, start 100 and increment 10, the
Nth emitted line (1-indexed) carries the prefix `N<100+10*(N-1)>`. -/
theorem line_number_arithmetic (cfg : Config) (ls : List Line) (N : ℕ)
    (h : cfg.outputLineNumbers = true) (hs : cfg.lineNumberStart = 100)
    (hi : cfg.lineIncrement = 10) (hN : 1 ≤ N) :
    (numberLines cfg cfg.lineNumberStart ls).get? (N - 1) =
      (ls.get? (N - 1)).map
        (fun l => ("N" ++ toString (100 + 10 * ((N : ℤ) - 1)) ++ " ", l)) := by
  rw [numberLines_get cfg h, hs, hi, Nat.cast_sub hN, Nat.cast_one]

/-- Claim C8 witness: the third line of a three-line program carries
`N120`. -/
theorem line_number_arithmetic_w :
    (numberLines cfgN cfgN.lineNumberStart [Line.text "a", Line.text "b", Line.text "c"]).get?
        (3 - 1) =
      ([Line.text "a", Line.text "b", Line.text "c"].get? (3 - 1)).map
        (fun l => ("N" ++ toString (100 + 10 * ((3 : ℤ) - 1)) ++ " ", l)) :=
  line_number_arithmetic cfgN [Line.text "a", Line.text "b", Line.text "c"] 3
    rfl rfl rfl (by norm_num)

/-- Claim C6: for two consecutively emitted commands with identical
mnemonics, the second line omits the mnemonic token exactly when the modal
option is enabled (lines 743-746); the suppression compares mnemonics
only — both commands' parameters are arbitrary. -/
theorem modal_suppression_second_line (cfg : Config) (fuel : ℕ) (l0 : Option String)
    (gst : GState) (c1 c2 : Command)
    (h1 : PlainName cfg c1.name) (h2 : PlainName cfg c2.name)
    (heq : c2.name = c1.name)
    (hne : paramTokens cfg c2 ≠ []) :
    ModalPairOutcome cfg fuel l0 gst c1 c2 := by
  have p1 := processCommand_plain cfg fuel l0 gst c1 h1
  have p2 := processCommand_plain cfg fuel (some c1.name) (gstUpdate cfg gst c1) c2 h2
  have hb2 : buildToks cfg (some c1.name) c2 =
      (if cfg.modal = true then [] else [Token.raw c2.name]) ++ paramTokens cfg c2 := by
    unfold buildToks
    by_cases hm : cfg.modal = true
    · rw [if_pos ⟨hm, by rw [heq]⟩, if_pos hm]
    · rw [if_neg (fun hc => hm hc.1), if_neg hm]
  have hlen : 1 ≤ (buildToks cfg (some c1.name) c2).length := by
    rw [hb2]
    by_cases hm : cfg.modal = true
    · rw [if_pos hm]
      simpa [Nat.succ_le_iff, List.length_pos] using hne
    · rw [if_neg hm]
      simp
  have hemit : (if 1 ≤ (buildToks cfg (some c1.name) c2).length
      then [Line.cmdLine (buildToks cfg (some c1.name) c2)] else [])
      = [Line.cmdLine ((if cfg.modal = true then [] else [Token.raw c2.name])
          ++ paramTokens cfg c2)] := by
    rw [if_pos hlen, hb2]
  rw [hemit] at p2
  refine ⟨(if 1 ≤ (buildToks cfg l0 c1).length
      then [Line.cmdLine (buildToks cfg l0 c1)] else []),
    gstUpdate cfg (gstUpdate cfg gst c1) c2, ?_⟩
  simp only [parseCommands, p1, p2]
  simp

/-- Claim C6 witness: two consecutive `G1` commands with different
parameters under `cfgM` (modal enabled). -/
theorem modal_suppression_second_line_w :
    ModalPairOutcome cfgM 1 none gstM
      ⟨"G1", [("X", 1), ("F", 1)]⟩ ⟨"G1", [("X", 2), ("F", 1)]⟩ :=
  modal_suppression_second_line cfgM 1 none gstM
    ⟨"G1", [("X", 1), ("F", 1)]⟩ ⟨"G1", [("X", 2), ("F", 1)]⟩
    (by decide) (by decide) rfl
    (by simp [paramTokens, paramsOrder, paramToken, cfgM, List.lookup])

/-- Claim C10: `parse` resets its modal-suppression memory per path
object (`lastcommand = None`, line 696): the first command of a freshly
parsed path always keeps its mnemonic token, whatever was emitted by a
preceding path object and whatever the modal option. -/
theorem modal_memory_reset_per_path (cfg : Config) (fuel : ℕ) (gst : GState)
    (l1 : String) (cmds1 : List Command) (l2 : String) (c : Command)
    (rest : List Command) (L1 : List Line) (g1 : GState)
    (_hprev : parsePath cfg fuel gst l1 cmds1 = .ok (some (L1, g1)))
    (hplain : PlainName cfg c.name) :
    FreshPathOutcome cfg fuel g1 l2 c rest := by
  intro L2 g2 h
  have p := processCommand_plain cfg fuel none g1 c hplain
  have hb : buildToks cfg none c = Token.raw c.name :: paramTokens cfg c := by
    unfold buildToks
    rw [if_neg (fun hc => Option.noConfusion hc.2)]
    rfl
  rw [hb] at p
  have hemit : (if 1 ≤ (Token.raw c.name :: paramTokens cfg c).length
      then [Line.cmdLine (Token.raw c.name :: paramTokens cfg c)] else [])
      = [Line.cmdLine (Token.raw c.name :: paramTokens cfg c)] := by
    rw [if_pos (by simp)]
  rw [hemit] at p
  unfold parsePath at h
  simp only [parseCommands, p] at h
  cases hrest : parseCommands cfg fuel (some c.name) (gstUpdate cfg g1 c) rest with
  | error e => rw [hrest] at h; simp at h
  | ok o =>
    cases o with
    | none => rw [hrest] at h; simp at h
    | some pr =>
      obtain ⟨ls, gs⟩ := pr
      rw [hrest] at h
      simp only [Except.ok.injEq, Option.some.injEq, Prod.mk.injEq] at h
      exact ⟨ls, by rw [← h.1]; simp⟩

/-- Claim C10 witness: two single-command paths with the same mnemonic
under `cfgM` (modal enabled): the second path's first command keeps its
mnemonic. -/
theorem modal_memory_reset_per_path_w :
    FreshPathOutcome cfgM 1 ⟨1, 0, 20, "G99", "G90"⟩ "b"
      ⟨"G1", [("X", 2), ("F", 1)]⟩ [] :=
  modal_memory_reset_per_path cfgM 1 gstM "a" [⟨"G1", [("X", 1), ("F", 1)]⟩] "b"
    ⟨"G1", [("X", 2), ("F", 1)]⟩ []
    [Line.cmdLine [Token.raw "G1", Token.num "X" 1, Token.num "F" 60]]
    ⟨1, 0, 20, "G99", "G90"⟩
    (by simp [parsePath, parseCommands, processCommand, tailLines, buildToks,
      paramTokens, paramsOrder, paramToken, gstUpdate, cfgM, gstM, List.lookup,
      (by decide : mcRunPayload "G1" = none)])
    (by decide)

/-- Prepending the rapid-to-clearance line (if any) and a plunge/retract
pair preserves the plunge-followed-by-retract chain. -/
theorem chain_follow_block (cfg : Config) (R f : ℚ)
    (clr : List Line) (hclr : clr = [] ∨ ∃ w, clr = [Line.rapidZ w])
    (dv : ℚ) (rest : List Line)
    (hrest : List.Chain' (fun a b => ∀ d fc, a = Line.feedZ d fc →
      b = Line.rapidZ (R * cfg.lengthFactor)) rest) :
    List.Chain' (fun a b => ∀ d fc, a = Line.feedZ d fc →
      b = Line.rapidZ (R * cfg.lengthFactor))
      (clr ++ Line.feedZ dv f :: Line.rapidZ (R * cfg.lengthFactor) :: rest) := by
  have hmid : List.Chain' (fun a b => ∀ d fc, a = Line.feedZ d fc →
      b = Line.rapidZ (R * cfg.lengthFactor))
      (Line.feedZ dv f :: Line.rapidZ (R * cfg.lengthFactor) :: rest) := by
    rw [List.chain'_cons]
    refine ⟨fun d fc _ => rfl, ?_⟩
    rw [List.chain'_cons']
    exact ⟨fun y _ d fc habs => absurd habs (by simp), hrest⟩
  rcases hclr with rfl | ⟨w, rfl⟩
  · exact hmid
  · rw [List.singleton_append, List.chain'_cons]
    exact ⟨fun d fc habs => absurd habs (by simp), hmid⟩

/-- The plunge depths of one peck block are the plunge target followed by
the depths of the remainder. -/
theorem plungeDepths_block (clr : List Line)
    (hclr : clr = [] ∨ ∃ w, clr = [Line.rapidZ w]) (dv fv rz : ℚ)
    (rest : List Line) :
    plungeDepths (clr ++ Line.feedZ dv fv :: Line.rapidZ rz :: rest) =
      dv :: plungeDepths rest := by
  rcases hclr with rfl | ⟨w, rfl⟩ <;> simp [plungeDepths]

/-- Invariant of the peck loop: any successful run from `lastStop`
satisfies the claimed output properties, and its first plunge depth is
either the final depth or one peck below `lastStop`. -/
theorem peckLoop_some_spec (cfg : Config) (Z R q aBit f : ℚ)
    (hq : 0 < q) (hLF : 0 < cfg.lengthFactor) :
    ∀ (fuel : ℕ) (lastStop : ℚ) (r : List Line),
      peckLoop cfg Z R q aBit f fuel lastStop = some r →
      PeckOutcome cfg Z R f r
      ∧ ((plungeDepths r).head? = some (Z * cfg.lengthFactor)
        ∨ (plungeDepths r).head? = some ((lastStop - q) * cfg.lengthFactor)) := by
  intro fuel
  induction fuel with
  | zero =>
    intro s r h
    simp [peckLoop] at h
  | succ n ih =>
    intro s r h
    simp only [peckLoop] at h
    have hclr : (if s ≠ R then [Line.rapidZ ((s + aBit) * cfg.lengthFactor)] else [])
        = [] ∨ ∃ w, (if s ≠ R then [Line.rapidZ ((s + aBit) * cfg.lengthFactor)] else [])
        = [Line.rapidZ w] := by
      split_ifs
      · exact Or.inr ⟨_, rfl⟩
      · exact Or.inl rfl
    by_cases hb : Z < s - q
    · rw [if_pos hb] at h
      cases hr : peckLoop cfg Z R q aBit f n (s - q) with
      | none => rw [hr] at h; cases h
      | some rest =>
        rw [hr] at h
        obtain rfl := (Option.some.inj h).symm
        obtain ⟨⟨A, C, D, B⟩, E⟩ := ih (s - q) rest hr
        have hdep := plungeDepths_block _ hclr ((s - q) * cfg.lengthFactor) f
          (R * cfg.lengthFactor) rest
        refine ⟨⟨chain_follow_block cfg R f _ hclr _ rest A, ?_, ?_, ?_⟩, ?_⟩
        · rw [hdep, List.chain'_cons']
          refine ⟨?_, C⟩
          intro y hy
          rcases E with E | E <;> rw [E, Option.mem_some_iff] at hy <;> subst hy
          · exact mul_lt_mul_of_pos_right hb hLF
          · have : s - q - q < s - q := sub_lt_self _ hq
            exact mul_lt_mul_of_pos_right this hLF
        · rw [hdep]
          intro d hd
          rcases List.mem_cons.mp hd with rfl | hd
          · exact le_of_lt (mul_lt_mul_of_pos_right hb hLF)
          · exact D d hd
        · obtain ⟨r₀, hr₀⟩ := B
          refine ⟨(if s ≠ R then [Line.rapidZ ((s + aBit) * cfg.lengthFactor)] else [])
            ++ Line.feedZ ((s - q) * cfg.lengthFactor) f
              :: Line.rapidZ (R * cfg.lengthFactor) :: r₀, ?_⟩
          rw [hr₀]
          simp
        · rw [hdep]
          exact Or.inr rfl
    · rw [if_neg hb] at h
      obtain rfl := (Option.some.inj h).symm
      have hdep := plungeDepths_block _ hclr (Z * cfg.lengthFactor) f
        (R * cfg.lengthFactor) []
      refine ⟨⟨chain_follow_block cfg R f _ hclr _ [] List.chain'_nil, ?_, ?_, ?_⟩, ?_⟩
      · rw [hdep]
        exact List.chain'_singleton _
      · rw [hdep]
        intro d hd
        rcases List.mem_cons.mp hd with rfl | hd
        · exact le_refl _
        · simp [plungeDepths] at hd
      · exact ⟨_, rfl⟩
      · rw [hdep]
        exact Or.inl rfl

/-- One unfolding step of the peck loop at positive fuel. -/
theorem peckLoop_succ (cfg : Config) (Z R q aBit f : ℚ) (fuel : ℕ) (s : ℚ) :
    peckLoop cfg Z R q aBit f (fuel + 1) s =
      if Z < s - q then
        match peckLoop cfg Z R q aBit f fuel (s - q) with
        | none => none
        | some rest =>
          some ((if s ≠ R then [Line.rapidZ ((s + aBit) * cfg.lengthFactor)] else []) ++
            Line.feedZ ((s - q) * cfg.lengthFactor) f ::
            Line.rapidZ (R * cfg.lengthFactor) :: rest)
      else
        some ((if s ≠ R then [Line.rapidZ ((s + aBit) * cfg.lengthFactor)] else []) ++
          [Line.feedZ (Z * cfg.lengthFactor) f,
            Line.rapidZ (R * cfg.lengthFactor)]) := rfl

/-- Termination of the peck loop: fuel one more than
`(lastStop - Z) / q` rounded up is always enough when the peck increment
is positive. -/
theorem peckLoop_fuel_enough (cfg : Config) (Z R q aBit f : ℚ) (hq : 0 < q) :
    ∀ (k : ℕ) (s : ℚ), s - Z ≤ k * q →
      (peckLoop cfg Z R q aBit f (k + 1) s).isSome := by
  intro k
  induction k with
  | zero =>
    intro s hs
    simp only [Nat.cast_zero, zero_mul] at hs
    rw [peckLoop_succ, if_neg (not_lt.mpr (by linarith))]
    simp
  | succ n ih =>
    intro s hs
    by_cases hb : Z < s - q
    · have h2 : (s - q) - Z ≤ (n : ℚ) * q := by
        push_cast at hs
        linarith
      rcases Option.isSome_iff_exists.mp (ih (s - q) h2) with ⟨rr, hrr⟩
      rw [peckLoop_succ, if_pos hb, hrr]
      simp
    · rw [peckLoop_succ, if_neg hb]
      simp

/-- Claim C4: for a strictly positive peck increment the `while 1` loop
terminates (some finite fuel suffices), and the emitted sequence satisfies
the claimed shape: strictly decreasing plunge depths, none below the hole
bottom, every plunge immediately followed by a rapid retract to the
retract height, and a final plunge exactly to depth followed by one
retract. -/
theorem peck_loop_terminates_monotone (cfg : Config) (Z R q aBit f : ℚ)
    (hq : 0 < q) (hLF : 0 < cfg.lengthFactor) :
    ∃ n r, peckLoop cfg Z R q aBit f n R = some r ∧ PeckOutcome cfg Z R f r := by
  obtain ⟨k, hk⟩ := exists_nat_ge ((R - Z) / q)
  have hfuel : R - Z ≤ (k : ℚ) * q := by
    rw [div_le_iff₀ hq] at hk
    exact hk
  have h1 := peckLoop_fuel_enough cfg Z R q aBit f hq k R hfuel
  rcases Option.isSome_iff_exists.mp h1 with ⟨r, hr⟩
  exact ⟨k + 1, r, hr, (peckLoop_some_spec cfg Z R q aBit f hq hLF (k + 1) R r hr).1⟩

/-- Claim C4 witness: the spec example — depth -10, peck step 3, retract 5
(so `a_bit` is 3/20), metric output. -/
theorem peck_loop_terminates_monotone_w :
    0 < (3 : ℚ) ∧ 0 < cfgM.lengthFactor ∧
    ∃ n r, peckLoop cfgM (-10) 5 3 (3 * (1 / 20)) 60 n 5 = some r
      ∧ PeckOutcome cfgM (-10) 5 60 r :=
  ⟨by norm_num, by norm_num [cfgM],
    peck_loop_terminates_monotone cfgM (-10) 5 3 (3 * (1 / 20)) 60
      (by norm_num) (by norm_num [cfgM])⟩

end BasePost
